import Mathlib

/-!
Verification of the analysis-framework repository (analysis_framework.py,
analysis/sanity_checker.py, analysis/diagnostic_analyzer.py, eda_analyzer.py)
against its natural-language specification.

Shallow embedding conventions used throughout this file:

* Python / pandas cell values are modelled by the inductive type `Value`:
  `vInt` for Python/numpy integers, `vFloat` for finite floats (idealised as
  exact rationals `ℚ`), `vNaN` for the float NaN, `vStr` for strings and
  `vNull` for Python `None`.  `pd.notna` is false exactly on `vNaN`/`vNull`.
* A pandas `DataFrame` is a `Frame`: a column-name list plus a list of rows,
  each row an association list from column name to `Value`.
* The database is an oracle `Db : String → Except String Frame`: a query
  either raises (the `Except.error` case models the exception raised by
  `pd.read_sql_query`) or returns a frame.  SQL semantics are not modelled;
  theorems that depend on facts guaranteed by SQL (for example that a
  `COUNT(*)` is non-negative) take those facts as explicit hypotheses on
  the oracle.
* Wall-clock fields (`timestamp`, `execution_time`) and formatted message
  strings are not part of any claim and are omitted from the embedded
  records; warnings and flags are represented by inductive constructors
  carrying the data that the Python code interpolates into the message.
* Python `str.upper`/`str.lower` are modelled on ASCII letters, which covers
  every string the code compares (SQL keywords and column names).
-/

/-- A Python / pandas cell value.  `vNull` is Python `None`, `vNaN` the float
NaN (note `isinstance(nan, float)` is true while `pd.notna(nan)` is false). -/
inductive Value where
  | vInt (n : ℤ)
  | vFloat (q : ℚ)
  | vNaN
  | vStr (s : String)
  | vNull
deriving DecidableEq

/-- `pd.notna`: false on `None` and NaN, true otherwise. -/
def Value.notna : Value → Bool
  | .vNaN => false
  | .vNull => false
  | _ => true

/-- Python `v is None`. -/
def Value.isNone : Value → Bool
  | .vNull => true
  | _ => false

/-- Python `isinstance(v, float)` (NaN is a float). -/
def Value.isFloat : Value → Bool
  | .vFloat _ => true
  | .vNaN => true
  | _ => false

/-- Numeric content of a value, when it has one. -/
def Value.toQ : Value → Option ℚ
  | .vInt n => some (n : ℚ)
  | .vFloat q => some q
  | _ => none

/-- Python `==` on cell values: numbers compare numerically across
int/float, NaN is unequal to everything (itself included), `None == None`
is `True`, and values of unrelated kinds compare unequal. -/
def Value.pyEq : Value → Value → Bool
  | .vInt a, .vInt b => a == b
  | .vInt a, .vFloat b => (a : ℚ) == b
  | .vFloat a, .vInt b => a == (b : ℚ)
  | .vFloat a, .vFloat b => a == b
  | .vStr a, .vStr b => a == b
  | .vNull, .vNull => true
  | _, _ => false

/-- A row of a data frame: association list from column name to value. -/
def Row := List (String × Value)

/-- Lookup of a column inside a row (`row[col]` / `col in row`). -/
def Row.get (r : Row) (c : String) : Option Value :=
  match r with
  | [] => none
  | (k, v) :: rest => if k = c then some v else Row.get rest c

/-- A pandas `DataFrame`: column names plus rows. -/
structure Frame where
  cols : List String
  rows : List Row

/-- The values of one column, in row order (missing cells read as `None`;
well-formed frames have every column in every row). -/
def Frame.colVals (f : Frame) (c : String) : List Value :=
  f.rows.map (fun r => (r.get c).getD .vNull)

/-- The database oracle: a query string either raises or yields a frame. -/
def Db := String → Except String Frame

/- ### ASCII string utilities (Python `str.upper`, `str.lower`, `in`) -/

/-- ASCII uppercase of one character (models Python `str.upper` on the
ASCII strings the code manipulates). -/
def upChar (c : Char) : Char :=
  if 97 ≤ c.toNat ∧ c.toNat ≤ 122 then Char.ofNat (c.toNat - 32) else c

/-- ASCII lowercase of one character. -/
def downChar (c : Char) : Char :=
  if 65 ≤ c.toNat ∧ c.toNat ≤ 90 then Char.ofNat (c.toNat + 32) else c

/-- Python `s.upper()` (ASCII). -/
def upStr (s : String) : String := String.mk (s.data.map upChar)

/-- Python `s.lower()` (ASCII). -/
def downStr (s : String) : String := String.mk (s.data.map downChar)

/-- Is `needle` a contiguous sublist of `hay`?  Models Python substring
containment `needle in hay`. -/
def subList (needle : List Char) : List Char → Bool
  | [] => needle.isEmpty
  | c :: rest => needle.isPrefixOf (c :: rest) || subList needle rest

/-- Python `needle in hay` for strings. -/
def strIn (needle hay : String) : Bool := subList needle.data hay.data

/- ### Performance considerations (analysis_framework.py,
`check_performance_considerations`, lines 135-179) -/

/-- Metadata that `get_table_metadata` supplies for one table: row count
(`none` when the metadata query failed) and the column names of the table. -/
structure TableMeta where
  row_count : Option ℕ
  columns : List String

/-- Table-metadata oracle, modelling `get_table_metadata`
(which catches its own exceptions and hence never raises). -/
def Meta := String → TableMeta

/-- The warnings of `check_performance_considerations`, by constructor
rather than by interpolated message text. -/
inductive PerfWarning where
  | largeTable (table : String) (rows : ℕ)
  | mediumTable (table : String) (rows : ℕ)
  | addDateFilter (table : String)
deriving DecidableEq

/-- The recommendations of `check_performance_considerations`. -/
inductive PerfRec where
  | goodDateFilter (table : String)
deriving DecidableEq

/-- The `estimated_cost` strings. -/
inductive Cost where
  | low
  | medium
  | high
deriving DecidableEq

/-- Result dictionary of `check_performance_considerations`. -/
structure PerfResult where
  warnings : List PerfWarning
  recommendations : List PerfRec
  estimated_cost : Cost
deriving DecidableEq

/-- The date-like keyword columns of the source (lowercase literals). -/
def dateKeywords : List String := ["created_at", "occurred_at", "timestamp"]

/-- Python truthiness of `row_count` combined with a strict bound:
`row_count and row_count > k`. -/
def rcOver (rc : Option ℕ) (k : ℕ) : Bool :=
  match rc with
  | some n => n ≠ 0 && k < n
  | none => false

/-- The body of the `for table in tables` loop of
`check_performance_considerations`, for one table. -/
def perfStep (meta : Meta) (query : String) (acc : PerfResult) (table : String) :
    PerfResult :=
  let md := meta table
  let acc1 :=
    if rcOver md.row_count 1000000 then
      ⟨acc.warnings ++ [.largeTable table ((md.row_count).getD 0)],
        acc.recommendations, .high⟩
    else if rcOver md.row_count 100000 then
      ⟨acc.warnings ++ [.mediumTable table ((md.row_count).getD 0)],
        acc.recommendations, .medium⟩
    else acc
  if md.columns.any (fun col => dateKeywords.contains col) then
    -- NOTE (faithful to the source): the keywords searched for are the
    -- lowercase literals while the haystack is `query.upper()`.
    if strIn "WHERE" (upStr query) &&
        dateKeywords.any (fun kw => strIn kw (upStr query)) then
      ⟨acc1.warnings, acc1.recommendations ++ [.goodDateFilter table],
        acc1.estimated_cost⟩
    else
      ⟨acc1.warnings ++ [.addDateFilter table], acc1.recommendations,
        acc1.estimated_cost⟩
  else acc1

/-- `check_performance_considerations(query, tables)`: fold of `perfStep`
over the table list starting from `{'warnings': [], 'recommendations': [],
'estimated_cost': 'low'}`. -/
def checkPerformanceConsiderations (meta : Meta) (query : String)
    (tables : List String) : PerfResult :=
  tables.foldl (perfStep meta query) ⟨[], [], .low⟩

/-- Concrete metadata oracle for the performance claims: table `events` has
10 rows and columns `id`, `created_at`; other tables have no metadata. -/
def metaEvents : Meta := fun t =>
  if t = "events" then ⟨some 10, ["id", "created_at"]⟩ else ⟨none, []⟩

/-- A query that textually contains the keyword `created_at`
(and no apostrophes, which this development avoids in literals). -/
def qWithDateFilter : String :=
  "SELECT id FROM events WHERE created_at > CURRENT_DATE - 30"

/-- Concrete metadata oracle for claim C10: `big` has 2,000,000 rows and
`mid` has 500,000 rows. -/
def metaSizes : Meta := fun t =>
  if t = "big" then ⟨some 2000000, []⟩
  else if t = "mid" then ⟨some 500000, []⟩
  else ⟨none, []⟩

/- ### Sanity checker (analysis/sanity_checker.py) -/

/-- Check status strings of the sanity checker. -/
inductive CStatus where
  | passed
  | failed
  | error
deriving DecidableEq

/-- Check severity strings of the sanity checker. -/
inductive CSeverity where
  | info
  | warning
  | err
deriving DecidableEq

/-- One emitted check.  The formatted `message` and the numeric payload
fields of the Python dict are omitted: no claim mentions them. -/
structure Check where
  name : String
  status : CStatus
  severity : CSeverity
deriving DecidableEq

/-- Table-specific rules (`table_specific_rules.<table>` of
sanity_check_rules.yml), with `none` standing for an absent YAML field. -/
structure TableRules where
  critical_columns : List String
  business_keys : List String
  date_ranges : List (Option String × Option String)
  numeric_ranges : List (Option String × Option ℚ × Option ℚ)
  categorical_columns : List (Option String × List String)
  required_columns : List String

/-- The empty table-rule dictionary `{}`. -/
def emptyTableRules : TableRules := ⟨[], [], [], [], [], []⟩

/-- The loaded rule document.  The four booleans are
`sanity_checks.<category>.enabled`, which `.get` defaults to `True`. -/
structure SanityRules where
  null_enabled : Bool
  duplicate_enabled : Bool
  consistency_enabled : Bool
  completeness_enabled : Bool
  table_rules : List (String × TableRules)

/-- The empty rule set `{}` that `_load_rules` returns when the YAML file
is missing or invalid: every chained `.get(..., default)` then takes its
default, so all four categories stay enabled and no table has rules. -/
def emptyRules : SanityRules := ⟨true, true, true, true, []⟩

/-- `table_specific_rules.get(table_name, {})`. -/
def getTableRules (rules : SanityRules) (table : String) : TableRules :=
  match rules.table_rules.lookup table with
  | some tr => tr
  | none => emptyTableRules

/-- The SQL texts the sanity checker sends to the database, indexed by
their constructor and interpolated parameters (which determine the text;
SQL semantics are left to the oracle). -/
inductive SQuery where
  | pkDup (table : String)
  | nullCount (table col : String)
  | bizDup (table col : String)
  | dateRange (table startCol endCol : String)
  | numRange (table col : String) (mn mx : ℚ)
  | enumVals (table col : String)
  | completeness (table col : String)

/-- Database oracle of the sanity checker. -/
def SDb := SQuery → Except String Frame

/-- `int(df[col].iloc[0])`: the named cell of the first row, as an
integer; `none` models the exception raised when the frame is empty, the
column is missing or the cell is not integral. -/
def cellInt (f : Frame) (c : String) : Option ℤ :=
  match f.rows with
  | [] => none
  | r :: _ =>
    match r.get c with
    | some (.vInt n) => some n
    | _ => none

/-- `float(df[col].iloc[0])`: the named cell of the first row as a number. -/
def cellQ (f : Frame) (c : String) : Option ℚ :=
  match f.rows with
  | [] => none
  | r :: _ =>
    match r.get c with
    | some v => v.toQ
    | none => none

/-- All cells of one column as strings (`df[col].str...` works only on
strings; anything else is an extraction failure). -/
def getStrCol (f : Frame) (c : String) : Option (List String) :=
  f.rows.mapM (fun r =>
    match r.get c with
    | some (.vStr s) => some s
    | _ => none)

/-- `_check_nulls`: one check per entry of `critical_columns`; a database
or extraction exception yields an error/error check. -/
def checkNulls (db : SDb) (table : String) (tr : TableRules) : List Check :=
  tr.critical_columns.map (fun col =>
    match db (.nullCount table col) with
    | .error _ => ⟨"null_check_" ++ col, .error, .err⟩
    | .ok f =>
      match cellInt f "null_count", cellQ f "null_percentage" with
      | some nc, some _ =>
        ⟨"null_check_" ++ col, if nc = 0 then .passed else .failed,
          if 0 < nc then .err else .info⟩
      | _, _ => ⟨"null_check_" ++ col, .error, .err⟩)

/-- `key.split('.')[-1] if '.' in key else key`. -/
def bizKeyCol (key : String) : String :=
  match (key.splitOn ".").getLast? with
  | some c => c
  | none => key

/-- `_check_duplicates`: the primary-key duplicate check runs
unconditionally, then one check per business key (whose duplicate count is
`len(df)`, the number of returned rows). -/
def checkDuplicates (db : SDb) (table : String) (tr : TableRules) : List Check :=
  (match db (.pkDup table) with
   | .error _ => ⟨"primary_key_duplicates", .error, .err⟩
   | .ok f =>
     match cellInt f "total_rows", cellInt f "unique_ids" with
     | some t, some u =>
       ⟨"primary_key_duplicates", if t - u = 0 then .passed else .failed,
         if 0 < t - u then .err else .info⟩
     | _, _ => ⟨"primary_key_duplicates", .error, .err⟩) ::
  tr.business_keys.map (fun key =>
    match db (.bizDup table (bizKeyCol key)) with
    | .error _ => ⟨"business_key_duplicates_" ++ bizKeyCol key, .error, .err⟩
    | .ok f =>
      ⟨"business_key_duplicates_" ++ bizKeyCol key,
        if f.rows.length = 0 then .passed else .failed,
        if 0 < f.rows.length then .warning else .info⟩)

/-- The number of distinct lowercased/stripped actual values that are not
among the lowercased/stripped expected values
(`len(set(actual) - set(expected))` of `_check_consistency`). -/
def unexpectedCount (vals expected : List String) : ℕ :=
  (((vals.map (fun s => (downStr s).trim)).dedup).filter
    (fun a => ¬ (expected.map (fun v => (downStr v).trim)).contains a)).length

/-- `_check_consistency`: date-range, numeric-range and enum checks in
source order; entries with falsy/absent parameters are skipped. -/
def checkConsistency (db : SDb) (table : String) (tr : TableRules) : List Check :=
  (tr.date_ranges.filterMap (fun p =>
    match p with
    | (some sc, some ec) =>
      if sc.isEmpty || ec.isEmpty then none
      else some
        (match db (.dateRange table sc ec) with
         | .error _ => ⟨"date_range_consistency_" ++ sc ++ "_" ++ ec, .error, .err⟩
         | .ok f =>
           match cellInt f "invalid_ranges" with
           | some n =>
             ⟨"date_range_consistency_" ++ sc ++ "_" ++ ec,
               if n = 0 then .passed else .failed,
               if 0 < n then .err else .info⟩
           | none => ⟨"date_range_consistency_" ++ sc ++ "_" ++ ec, .error, .err⟩)
    | _ => none)) ++
  (tr.numeric_ranges.filterMap (fun p =>
    match p with
    | (some cn, some mn, some mx) =>
      if cn.isEmpty then none
      else some
        (match db (.numRange table cn mn mx) with
         | .error _ => ⟨"numeric_range_" ++ cn, .error, .err⟩
         | .ok f =>
           match cellInt f "out_of_range" with
           | some n =>
             ⟨"numeric_range_" ++ cn, if n = 0 then .passed else .failed,
               if 0 < n then .warning else .info⟩
           | none => ⟨"numeric_range_" ++ cn, .error, .err⟩)
    | _ => none)) ++
  (tr.categorical_columns.filterMap (fun p =>
    match p with
    | (some cn, expected) =>
      if cn.isEmpty || expected.isEmpty then none
      else some
        (match db (.enumVals table cn) with
         | .error _ => ⟨"enum_consistency_" ++ cn, .error, .err⟩
         | .ok f =>
           match getStrCol f "value" with
           | some vals =>
             ⟨"enum_consistency_" ++ cn,
               if unexpectedCount vals expected = 0 then .passed else .failed,
               if 0 < unexpectedCount vals expected then .warning else .info⟩
           | none => ⟨"enum_consistency_" ++ cn, .error, .err⟩)
    | _ => none))

/-- `_check_completeness`: one check per required column; the fixed
threshold is 95%. -/
def checkCompleteness (db : SDb) (table : String) (tr : TableRules) : List Check :=
  tr.required_columns.map (fun col =>
    match db (.completeness table col) with
    | .error _ => ⟨"completeness_" ++ col, .error, .err⟩
    | .ok f =>
      match cellQ f "completeness_pct", cellInt f "non_null_count",
          cellInt f "total_rows" with
      | some pct, some _, some _ =>
        ⟨"completeness_" ++ col, if 95 ≤ pct then .passed else .failed,
          if pct < 95 then .warning else .info⟩
      | _, _, _ => ⟨"completeness_" ++ col, .error, .err⟩)

/-- The `summary` dictionary. -/
structure SanitySummary where
  total_checks : ℕ
  passed : ℕ
  warnings : ℕ
  errors : ℕ
deriving DecidableEq

/-- One iteration of the summary loop of `run_sanity_checks`: always count
the check, then the `status == 'passed'` / `severity == 'warning'` /
`severity == 'error'` elif-chain. -/
def sumStep (s : SanitySummary) (c : Check) : SanitySummary :=
  ⟨s.total_checks + 1,
    s.passed + (if c.status = .passed then 1 else 0),
    s.warnings + (if c.status ≠ .passed ∧ c.severity = .warning then 1 else 0),
    s.errors +
      (if c.status ≠ .passed ∧ c.severity ≠ .warning ∧ c.severity = .err then 1
       else 0)⟩

/-- The summary loop over all four category lists in source order. -/
def summarize (checks : List Check) : SanitySummary :=
  checks.foldl sumStep ⟨0, 0, 0, 0⟩

/-- Result dictionary of `run_sanity_checks` (the `timestamp` field is
wall-clock and omitted). -/
structure SanityResult where
  table_name : String
  null_checks : List Check
  duplicate_checks : List Check
  consistency_checks : List Check
  completeness_checks : List Check
  summary : SanitySummary

/-- `run_sanity_checks(table_name)`: run each enabled category and
aggregate the summary.  Total function: every database and extraction
exception inside a category is converted to an error check. -/
def runSanityChecks (rules : SanityRules) (db : SDb) (table : String) :
    SanityResult :=
  let tr := getTableRules rules table
  let nulls := if rules.null_enabled then checkNulls db table tr else []
  let dups := if rules.duplicate_enabled then checkDuplicates db table tr else []
  let cons := if rules.consistency_enabled then checkConsistency db table tr else []
  let comps :=
    if rules.completeness_enabled then checkCompleteness db table tr else []
  ⟨table, nulls, dups, cons, comps, summarize (nulls ++ dups ++ cons ++ comps)⟩

/-- A check that the summary elif-chain counts exactly once. -/
def CheckOK (c : Check) : Prop :=
  c.status = .passed ∨ c.severity = .warning ∨ c.severity = .err

/-- A count cell of a query result is non-negative when it extracts (true
of every result an SQL COUNT can produce). -/
def NonnegCount (r : Except String Frame) (col : String) : Prop :=
  match r with
  | .ok f => ∀ n, cellInt f col = some n → 0 ≤ n
  | .error _ => True

/-- The primary-key query returns `COUNT(*) ≥ COUNT(DISTINCT id)`
whenever both cells extract. -/
def PkConsistent (r : Except String Frame) : Prop :=
  match r with
  | .ok f =>
    ∀ t u, cellInt f "total_rows" = some t → cellInt f "unique_ids" = some u →
      u ≤ t
  | .error _ => True

/-- The oracle facts guaranteed by SQL semantics that the summary
invariant needs. -/
def SqlConsistent (db : SDb) : Prop :=
  (∀ t, PkConsistent (db (.pkDup t))) ∧
  (∀ t c, NonnegCount (db (.nullCount t c)) "null_count") ∧
  (∀ t s e, NonnegCount (db (.dateRange t s e)) "invalid_ranges") ∧
  (∀ t c mn mx, NonnegCount (db (.numRange t c mn mx)) "out_of_range")

/-- An oracle on which every sanity query raises (for example a closed
connection): used as a concrete instance. -/
def dbFail : SDb := fun _ => .error "connection closed"

/- ### Rational statistics shared by the diagnostic analyzer and the EDA
analyzer (pandas `mean`, `median`, `quantile`, `std`, numpy `var`) -/

/-- Insertion into a sorted list. -/
def insertSorted (x : ℚ) : List ℚ → List ℚ
  | [] => [x]
  | y :: ys => if x ≤ y then x :: y :: ys else y :: insertSorted x ys

/-- Insertion sort (ascending), as used by quantile computation. -/
def sortQ (l : List ℚ) : List ℚ := l.foldr insertSorted []

/-- pandas `Series.mean` of a non-empty numeric series (exact). -/
def meanQ (l : List ℚ) : ℚ := l.sum / (l.length : ℚ)

/-- pandas `Series.quantile(p)` with the default linear interpolation:
the value at fractional position `(n-1)·p` of the sorted data. -/
def quantileQ (l : List ℚ) (p : ℚ) : ℚ :=
  let s := sortQ l
  let n := s.length
  let h : ℚ := ((n : ℚ) - 1) * p
  let i : ℕ := (⌊h⌋).toNat
  let lo := s.getD i 0
  let hi := s.getD (i + 1) lo
  lo + (h - (i : ℚ)) * (hi - lo)

/-- Sample variance with `ddof=1` (pandas `Series.var`/`std²`), defined for
series of length at least 2. -/
def varS (l : List ℚ) : ℚ :=
  (l.map (fun x => (x - meanQ l) ^ 2)).sum / ((l.length : ℚ) - 1)

/-- pandas `Series.std` squared: `none` models the NaN that `std` returns
on a single observation (`ddof=1`).  The square keeps the value rational;
no claim mentions the std itself. -/
def stdSq (l : List ℚ) : Option ℚ :=
  if l.length ≤ 1 then none else some (varS l)

/-- Minimum of a series (0 for the empty series, which no caller hits). -/
def minQ (l : List ℚ) : ℚ := (sortQ l).headD 0

/-- Maximum of a series. -/
def maxQ (l : List ℚ) : ℚ := (sortQ l).getLastD 0

/- ### Diagnostic analyzer (analysis/diagnostic_analyzer.py,
`compare_segments`, lines 20-98) -/

/-- The t-statistic as scipy reports it: a finite value `num / √denSq`
(kept as the exact pair, since the square root is irrational), `±inf` from
division of a nonzero difference by a zero pooled deviation, or NaN. -/
inductive TVal where
  | fin (num denSq : ℚ)
  | posInf
  | negInf
  | nan
deriving DecidableEq

/-- The p-value: an exact rational (0 for an infinite t-statistic, or the
value supplied by the Student survival-function parameter for a finite
t-statistic), or NaN. -/
inductive PVal where
  | val (q : ℚ)
  | nan
deriving DecidableEq

/-- The two-sided Student-t p-value of a finite statistic `num / √denSq`
with the given degrees of freedom.  The function is transcendental, so the
embedding takes it as a parameter; no claim depends on its values. -/
def SF := ℚ → ℚ → ℕ → ℚ

/-- `scipy.stats.ttest_ind(a, b)` (default `equal_var=True`) on non-empty
numeric samples.  scipy never raises here: with a length-1 sample the
`ddof=1` variance is NaN and both outputs are NaN; with zero pooled
variance the division yields `±inf` (p = 0) for a nonzero mean difference
and NaN for a zero one; otherwise the statistic is finite. -/
def ttestInd (sf : SF) (a b : List ℚ) : TVal × PVal :=
  let n1 := a.length
  let n2 := b.length
  if n1 ≤ 1 ∨ n2 ≤ 1 then (.nan, .nan)
  else
    let d := meanQ a - meanQ b
    let sv := (((n1 : ℚ) - 1) * varS a + ((n2 : ℚ) - 1) * varS b) /
      (((n1 : ℚ) + (n2 : ℚ)) - 2)
    let denSq := sv * (1 / (n1 : ℚ) + 1 / (n2 : ℚ))
    if denSq = 0 then
      if d = 0 then (.nan, .nan)
      else if 0 < d then (.posInf, .val 0) else (.negInf, .val 0)
    else (.fin d denSq, .val (sf d denSq (n1 + n2 - 2)))

/-- Python `p_value < 0.05` (false when the p-value is NaN). -/
def pLt (p : PVal) (c : ℚ) : Bool :=
  match p with
  | .val q => decide (q < c)
  | .nan => false

/-- One per-segment statistics dictionary of `compare_segments` (the
`std` field is carried as its square, see `stdSq`). -/
structure SegStats where
  count : ℕ
  mean : ℚ
  median : ℚ
  std_sq : Option ℚ
  min : ℚ
  max : ℚ
  q25 : ℚ
  q75 : ℚ
deriving DecidableEq

/-- One pairwise comparison dictionary of `compare_segments`. -/
structure CompEntry where
  mean_diff : ℚ
  mean_diff_pct : ℚ
  t_statistic : TVal
  p_value : PVal
  significant : Bool
deriving DecidableEq

/-- The result dictionary of `compare_segments`; `comparisons` is keyed by
the `(seg1, seg2)` pair that the code renders as `"{seg1}_vs_{seg2}"`. -/
structure Comparison where
  segment_column : String
  metric_column : String
  segments_compared : List Value
  segment_stats : List (Value × SegStats)
  comparisons : List ((Value × Value) × CompEntry)
deriving DecidableEq

/-- The segment-column value of a row. -/
def segValue (r : Row) (segCol : String) : Value := (r.get segCol).getD .vNull

/-- `df[df[seg] == s][metric].dropna()` as exact rationals (the metric
column is numeric in every use; `dropna` discards NaN/None). -/
def metricData (rows : List Row) (segCol metCol : String) (s : Value) : List ℚ :=
  ((rows.filter (fun r => Value.pyEq (segValue r segCol) s)).map
    (fun r => (r.get metCol).getD .vNull)).filterMap Value.toQ

/-- `Series.unique()`: first-occurrence-preserving deduplication. -/
def uniqueVals (l : List Value) : List Value :=
  l.foldl (fun acc v => if acc.contains v then acc else acc ++ [v]) []

/-- All ordered pairs `(l[i], l[j])` with `i < j`, the iteration order of
the nested pairwise loop. -/
def pairsOf {α : Type} : List α → List (α × α)
  | [] => []
  | x :: xs => xs.map (fun y => (x, y)) ++ pairsOf xs

/-- Per-segment statistics from a non-empty metric series. -/
def mkSegStats (data : List ℚ) : SegStats :=
  ⟨data.length, meanQ data, quantileQ data (1 / 2), stdSq data, minQ data,
    maxQ data, quantileQ data (1 / 4), quantileQ data (3 / 4)⟩

/-- The comparison dictionary built for one segment pair from the two
non-empty metric series. -/
def compEntryFor (sf : SF) (d1 d2 : List ℚ) : CompEntry :=
  ⟨meanQ d1 - meanQ d2,
    if meanQ d2 ≠ 0 then (meanQ d1 - meanQ d2) / meanQ d2 * 100 else 0,
    (ttestInd sf d1 d2).1, (ttestInd sf d1 d2).2,
    pLt (ttestInd sf d1 d2).2 (1 / 20)⟩

/-- The body of the pairwise loop: an entry when both segments have a
non-empty metric series (`len > 0` in the source), nothing otherwise. -/
def pairEntry (sf : SF) (rows : List Row) (segCol metCol : String)
    (p : Value × Value) : Option ((Value × Value) × CompEntry) :=
  if 0 < (metricData rows segCol metCol p.1).length ∧
      0 < (metricData rows segCol metCol p.2).length then
    some (p, compEntryFor sf (metricData rows segCol metCol p.1)
      (metricData rows segCol metCol p.2))
  else none

/-- `compare_segments(df, segment_column, metric_column, segments)`.  The
`{'error': 'Columns not found'}` dictionary is the `Except.error` case.
The `try/except` around the t-test never fires: scipy returns NaN rather
than raising on these inputs (see `ttestInd`), so the embedding is total. -/
def compareSegments (sf : SF) (df : Frame) (segCol metCol : String)
    (segments : Option (List Value)) : Except String Comparison :=
  if segCol ∈ df.cols ∧ metCol ∈ df.cols then
    let rows :=
      match segments with
      | some ss =>
        if ss.isEmpty then df.rows
        else df.rows.filter (fun r => ss.contains (segValue r segCol))
      | none => df.rows
    let uniq := uniqueVals ((rows.map (fun r => segValue r segCol)).filter
      Value.notna)
    Except.ok
      ⟨segCol, metCol, uniq,
        uniq.filterMap (fun s =>
          let data := metricData rows segCol metCol s
          if 0 < data.length then some (s, mkSegStats data) else none),
        (pairsOf uniq).filterMap (pairEntry sf rows segCol metCol)⟩
  else Except.error "Columns not found"

/-- A placeholder Student survival function for concrete evaluations whose
code path never consults it. -/
def sfZero : SF := fun _ _ _ => 0

/-- The end-to-end table of claim C7: columns `{id, plan, monthly_price,
status}`, 3 rows `plan='free', monthly_price=10` and 3 rows `plan='pro',
monthly_price=20`, all `status='active'`. -/
def df7 : Frame :=
  ⟨["id", "plan", "monthly_price", "status"],
    [[("id", .vInt 1), ("plan", .vStr "free"), ("monthly_price", .vInt 10),
        ("status", .vStr "active")],
      [("id", .vInt 2), ("plan", .vStr "free"), ("monthly_price", .vInt 10),
        ("status", .vStr "active")],
      [("id", .vInt 3), ("plan", .vStr "free"), ("monthly_price", .vInt 10),
        ("status", .vStr "active")],
      [("id", .vInt 4), ("plan", .vStr "pro"), ("monthly_price", .vInt 20),
        ("status", .vStr "active")],
      [("id", .vInt 5), ("plan", .vStr "pro"), ("monthly_price", .vInt 20),
        ("status", .vStr "active")],
      [("id", .vInt 6), ("plan", .vStr "pro"), ("monthly_price", .vInt 20),
        ("status", .vStr "active")]]⟩

/-- A table whose two segments each hold exactly one metric observation. -/
def dfSingles : Frame :=
  ⟨["plan", "x"],
    [[("plan", .vStr "a"), ("x", .vInt 1)],
      [("plan", .vStr "b"), ("x", .vInt 2)]]⟩

/-- The comparison result that `compare_segments` produces on `dfSingles`:
both one-observation segments get their stats, and the pair is reported
with NaN t-statistic and p-value. -/
def cmpSingles : Comparison :=
  ⟨"plan", "x", [.vStr "a", .vStr "b"],
    [(.vStr "a", ⟨1, 1, 1, none, 1, 1, 1, 1⟩),
      (.vStr "b", ⟨1, 2, 2, none, 2, 2, 2, 2⟩)],
    [((.vStr "a", .vStr "b"), ⟨-1, -50, .nan, .nan, false⟩)]⟩

/- ### EDA distribution analysis (eda_analyzer.py,
`_analyze_distributions`, lines 156-221; the claims touch only the numeric
half of the function, so the categorical half is not embedded) -/

/-- `scipy.stats.skew` (the biased moment skewness `m3 / m2^1.5`, an
irrational function of the data): taken as a parameter, since no claim
depends on its values. -/
def SkewFn := List ℚ → ℚ

/-- The per-column numeric distribution dictionary. -/
structure NumDist where
  skewness : ℚ
  outlier_count : ℕ
  outlier_percentage : ℚ
  zero_count : ℕ
  zero_percentage : ℚ
deriving DecidableEq

/-- The distribution flags raised by the numeric half of
`_analyze_distributions`, by constructor. -/
inductive EdaFlag where
  | highSkewness (col : String) (value : ℚ)
  | outliers (col : String) (count : ℕ)
  | zeroInflation (col : String) (pct : ℚ)
deriving DecidableEq

/-- The IQR outlier fences `[Q1 - 1.5·IQR, Q3 + 1.5·IQR]`. -/
def outlierBounds (data : List ℚ) : ℚ × ℚ :=
  (quantileQ data (1 / 4) - 3 / 2 * (quantileQ data (3 / 4) - quantileQ data (1 / 4)),
    quantileQ data (3 / 4) + 3 / 2 * (quantileQ data (3 / 4) - quantileQ data (1 / 4)))

/-- `col_data[(col_data < lower_bound) | (col_data > upper_bound)]`. -/
def outliersOf (data : List ℚ) : List ℚ :=
  data.filter (fun v => v < (outlierBounds data).1 ∨ (outlierBounds data).2 < v)

/-- The numeric distribution entry for one non-empty column series. -/
def numDistEntry (skew : SkewFn) (data : List ℚ) : NumDist :=
  ⟨skew data, (outliersOf data).length,
    ((outliersOf data).length : ℚ) / (data.length : ℚ) * 100,
    (data.filter (fun v => v = 0)).length,
    ((data.filter (fun v => v = 0)).length : ℚ) / (data.length : ℚ) * 100⟩

/-- The flags appended for one numeric column, in source order: high
skewness when `|skew| > 2`, outliers when any exist, zero inflation when
the zero percentage exceeds 50. -/
def numColFlags (skew : SkewFn) (col : String) (data : List ℚ) : List EdaFlag :=
  (if 2 < |skew data| then [.highSkewness col (skew data)] else []) ++
    ((if 0 < (outliersOf data).length then
        [.outliers col ((outliersOf data).length)] else []) ++
      (if 50 < (numDistEntry skew data).zero_percentage then
        [.zeroInflation col ((numDistEntry skew data).zero_percentage)] else []))

/-- The numeric half of `_analyze_distributions`: per numeric column, drop
the nulls, skip empty series, record the distribution entry and append the
flags; returns `(numeric_distributions, flags)`. -/
def analyzeDistributions (skew : SkewFn) (cols : List (String × List Value)) :
    List (String × NumDist) × List EdaFlag :=
  cols.foldl (fun acc c =>
    let data := (c.2.filter Value.notna).filterMap Value.toQ
    if data.isEmpty then acc
    else (acc.1 ++ [(c.1, numDistEntry skew data)],
      acc.2 ++ numColFlags skew c.1 data))
    ([], [])

/- ### Analysis framework (analysis_framework.py: `execute_query`,
`validate_aggregation`, `add_step`, `_extract_table_names`) -/

/-- `execute_query`: the EXPLAIN pre-query is wrapped in its own
try/except and cannot raise, so the observable behaviour is the main
`pd.read_sql_query` call — the oracle itself. -/
def executeQuery (db : Db) (q : String) : Except String Frame := db q

/-- Python `\s` (ASCII whitespace). -/
def isSpaceCh (c : Char) : Bool :=
  c = ' ' || c = '\t' || c = '\n' || c = '\r' || c.toNat = 11 || c.toNat = 12

/-- Python `\w` (ASCII word character). -/
def isWordCh (c : Char) : Bool := c.isAlphanum || c = '_'

/-- Attempt to match `kw` case-insensitively at the head of `s` followed by
`\s+(\w+)` as in `re.findall(r'FROM\s+(\w+)', query, re.IGNORECASE)`:
returns the captured word and the total length consumed. -/
def matchKwAt (kw s : List Char) : Option (List Char × ℕ) :=
  if (s.take kw.length).map upChar = kw.map upChar ∧ kw.length ≤ s.length then
    let rest := s.drop kw.length
    let ws := rest.takeWhile isSpaceCh
    if ws.length = 0 then none
    else
      let word := (rest.drop ws.length).takeWhile isWordCh
      if word.length = 0 then none
      else some (word, kw.length + ws.length + word.length)
  else none

/-- All captures of `kw\s+(\w+)` in `s`, scanning left to right and
resuming after each match, as `re.findall` does. -/
def scanKw (kw : List Char) : List Char → List (List Char)
  | [] => []
  | c :: rest =>
    match matchKwAt kw (c :: rest) with
    | some (w, k) => w :: scanKw kw (rest.drop (k - 1))
    | none => scanKw kw rest
termination_by s => s.length
decreasing_by
  · simp only [List.length_drop, List.length_cons]
    omega
  · simp only [List.length_cons]
    omega

/-- First-occurrence-preserving deduplication of strings.  Python's
`list(set(tables))` has no specified order; the claims never depend on it
and this embedding fixes the first-occurrence order. -/
def dedupStrList (l : List String) : List String :=
  l.foldl (fun acc v => if acc.contains v then acc else acc ++ [v]) []

/-- `_extract_table_names`: the FROM captures, then the JOIN captures,
deduplicated. -/
def extractTableNames (q : String) : List String :=
  dedupStrList
    ((scanKw "FROM".data q.data ++ scanKw "JOIN".data q.data).map String.mk)

/-- One validation case of `validate_aggregation`.  `description` and
`notes` (pure formatted text) are omitted; `expected_value = none` is
Python `None`, and a reported `None` actual value is `Value.vNull`. -/
structure ValidationCase where
  case_id : String
  raw_data_query : String
  expected_value : Option Value
  actual_value : Value
  passed : Option Bool
deriving DecidableEq

/-- A single-quote character, used when rendering string values into SQL. -/
def sqc : String := String.singleton (Char.ofNat 39)

/-- Python string interpolation of a cell value into the WHERE clause:
strings are quoted, everything else rendered bare (the numeric rendering
is the model's, standing in for `str(float)`). -/
def renderVal (v : Value) : String :=
  match v with
  | .vStr s => sqc ++ s ++ sqc
  | .vInt n => toString n
  | .vFloat q => toString q
  | .vNaN => "nan"
  | .vNull => "None"

/-- The equality conditions built from the row's segment-column values:
only columns present in the row and with non-null values contribute. -/
def whereConds (segCols : List String) (row : Row) : List (String × Value) :=
  segCols.filterMap (fun col =>
    match row.get col with
    | some v => if v.notna then some (col, v) else none
    | none => none)

/-- One rendered condition `col = value`. -/
def renderCond (c : String × Value) : String := c.1 ++ " = " ++ renderVal c.2

/-- The raw-data query of one validation case, whitespace-normalised from
the source's multiline f-string: `SELECT * FROM {table} WHERE {conds}
LIMIT 100;`. -/
def mkRawQuery (table : String) (conds : List (String × Value)) : String :=
  "SELECT * FROM " ++ table ++ " WHERE " ++
    String.intercalate " AND " (conds.map renderCond) ++ " LIMIT 100;"

/-- Delete every occurrence of the non-empty pattern from the character
list (`str.replace(pat, '')`, which replaces all occurrences). -/
def deleteAll (pat : List Char) : List Char → List Char
  | [] => []
  | c :: rest =>
    if ¬ pat.isEmpty ∧ pat.isPrefixOf (c :: rest) then
      deleteAll pat (rest.drop (pat.length - 1))
    else c :: deleteAll pat rest
termination_by s => s.length
decreasing_by
  · simp only [List.length_drop, List.length_cons]
    omega
  · simp only [List.length_cons]
    omega

/-- `aggregation_column.replace('SUM(', '').replace(')', '').strip()`
(note the replacement is case-sensitive while the form detection is not). -/
def sumColName (aggCol : String) : String :=
  (String.mk (deleteAll ")".data (deleteAll "SUM(".data aggCol.data))).trim

/-- `aggregation_column.replace('AVG(', '').replace(')', '').strip()`. -/
def avgColName (aggCol : String) : String :=
  (String.mk (deleteAll ")".data (deleteAll "AVG(".data aggCol.data))).trim

/-- `raw_df[col].sum()`: an integer when the column is pure integers
(including the empty sum 0), a float otherwise; pandas skips nulls.  Only
numeric columns occur in the validated aggregations. -/
def pandasSum (vals : List Value) : Value :=
  if vals.all (fun v => match v with | .vInt _ => true | _ => false) then
    .vInt (vals.filterMap (fun v =>
      match v with | .vInt n => some n | _ => none)).sum
  else .vFloat (vals.filterMap Value.toQ).sum

/-- `raw_df[col].mean()`: NaN on an empty (or all-null) column, a float
otherwise. -/
def pandasMean (vals : List Value) : Value :=
  if (vals.filterMap Value.toQ).isEmpty then .vNaN
  else .vFloat (meanQ (vals.filterMap Value.toQ))

/-- The manual recomputation of the aggregate from the raw sample, keyed
on the aggregation-column label exactly as the source's elif chain:
`lower() in ['count', 'count(*)']`, then `'sum' in lower()`, then
`'avg' in lower()`, else no expected value. -/
def expectedFor (aggCol : String) (raw : Frame) : Option Value :=
  if downStr aggCol = "count" ∨ downStr aggCol = "count(*)" then
    some (.vInt raw.rows.length)
  else if strIn "sum" (downStr aggCol) then
    if sumColName aggCol ∈ raw.cols then
      some (pandasSum (raw.colVals (sumColName aggCol)))
    else none
  else if strIn "avg" (downStr aggCol) then
    if avgColName aggCol ∈ raw.cols then
      some (pandasMean (raw.colVals (avgColName aggCol)))
    else none
  else none

/-- The `passed` verdict: `None` unless both expected and actual are
non-`None`; absolute tolerance 0.01 when both are floats (false when
either is NaN, as in IEEE), Python `==` otherwise. -/
def comparePassed (expected : Option Value) (actual : Value) : Option Bool :=
  match expected with
  | none => none
  | some e =>
    if actual.isNone then none
    else some
      (if e.isFloat ∧ actual.isFloat then
        match e.toQ, actual.toQ with
        | some qe, some qa => decide (|qe - qa| < 1 / 100)
        | _, _ => false
      else e.pyEq actual)

/-- One iteration of the validation loop of `validate_aggregation`:
build the filter, fetch the raw sample (propagating a query exception),
recompute, read the reported value (a missing aggregation column raises a
`KeyError`), compare. -/
def mkValidationCase (db : Db) (aggCol : String) (segCols : List String)
    (table : String) (idx : ℕ) (row : Row) : Except String ValidationCase :=
  match db (mkRawQuery table (whereConds segCols row)) with
  | .error e => .error e
  | .ok raw =>
    match row.get aggCol with
    | none => .error ("KeyError: " ++ aggCol)
    | some actual =>
      .ok ⟨"case_" ++ toString (idx + 1),
        mkRawQuery table (whereConds segCols row),
        expectedFor aggCol raw, actual,
        comparePassed (expectedFor aggCol raw) actual⟩

/-- The validation loop over the sampled rows, carrying the positional
index that names the cases `case_1`, `case_2`, ... -/
def validateCases (db : Db) (aggCol : String) (segCols : List String)
    (table : String) : ℕ → List Row → Except String (List ValidationCase)
  | _, [] => .ok []
  | idx, r :: rs =>
    match mkValidationCase db aggCol segCols table idx r with
    | .error e => .error e
    | .ok c =>
      match validateCases db aggCol segCols table (idx + 1) rs with
      | .error e => .error e
      | .ok cs => .ok (c :: cs)

/-- `validate_aggregation`: run the aggregation query (`explain=False`),
take the first `num_cases` rows (`agg_df.head(num_cases)`), and validate
each. -/
def validateAggregation (db : Db) (aggQ aggCol : String)
    (segCols : List String) (table : String) (numCases : ℕ) :
    Except String (List ValidationCase) :=
  match executeQuery db aggQ with
  | .error e => .error e
  | .ok aggDf => validateCases db aggCol segCols table 0 (aggDf.rows.take numCases)

/- Spec-side formulation of the same algorithm, following the wording of
the specification sentence by sentence; compared against the source-side
`validateAggregation` by the claim C5 theorem. -/

/-- Spec: the three known aggregate forms the label can match. -/
inductive AggForm where
  | count
  | sumOf (col : String)
  | avgOf (col : String)
  | unknown

/-- Spec: classify the aggregation-column label against the three known
forms (Count / Sum(col) / Average(col)). -/
def classifyAgg (label : String) : AggForm :=
  if downStr label = "count" ∨ downStr label = "count(*)" then .count
  else if strIn "sum" (downStr label) then .sumOf (sumColName label)
  else if strIn "avg" (downStr label) then .avgOf (avgColName label)
  else .unknown

/-- Spec: independently recompute the aggregate from the raw sample. -/
def specExpected (form : AggForm) (raw : Frame) : Option Value :=
  match form with
  | .count => some (.vInt raw.rows.length)
  | .sumOf col =>
    if col ∈ raw.cols then some (pandasSum (raw.colVals col)) else none
  | .avgOf col =>
    if col ∈ raw.cols then some (pandasMean (raw.colVals col)) else none
  | .unknown => none

/-- Spec: floating values compared with absolute tolerance 0.01,
everything else by exact equality. -/
def specCompareVals (e a : Value) : Bool :=
  if e.isFloat ∧ a.isFloat then
    match e.toQ, a.toQ with
    | some qe, some qa => decide (|qe - qa| < 1 / 100)
    | _, _ => false
  else e.pyEq a

/-- Spec: the verdict is indeterminate when either side is missing. -/
def specPassed (expected : Option Value) (actual : Value) : Option Bool :=
  match expected with
  | none => none
  | some e => if actual.isNone then none else some (specCompareVals e actual)

/-- Spec: the processing of one sampled row (at its position `i`). -/
def specCase (db : Db) (aggCol : String) (segCols : List String)
    (table : String) (p : ℕ × Row) : Except String ValidationCase :=
  (db (mkRawQuery table (whereConds segCols p.2))).bind (fun raw =>
    match (p.2).get aggCol with
    | none => .error ("KeyError: " ++ aggCol)
    | some actual =>
      .ok ⟨"case_" ++ toString (p.1 + 1),
        mkRawQuery table (whereConds segCols p.2),
        specExpected (classifyAgg aggCol) raw, actual,
        specPassed (specExpected (classifyAgg aggCol) raw) actual⟩)

/-- Spec: take the first `sample_n` rows of the aggregated result in
order (no randomization) and validate each one independently. -/
def validateAggregationSpec (db : Db) (aggQ aggCol : String)
    (segCols : List String) (table : String) (sampleN : ℕ) :
    Except String (List ValidationCase) :=
  (executeQuery db aggQ).bind (fun aggDf =>
    ((aggDf.rows.take sampleN).enum).mapM (specCase db aggCol segCols table))

/-- `all(c.passed for c in validation_cases if c.passed is not None)`. -/
def allPassed (cases : List ValidationCase) : Bool :=
  (cases.filter (fun c => c.passed.isSome)).all (fun c => c.passed == some true)

/-- The `validation_results` dictionary of a validated step (the
per-case echo of the fields is omitted; `cases` carries them). -/
structure VRes where
  cases : List ValidationCase
  all_passed : Bool
deriving DecidableEq

/-- An `AnalysisStep` as `add_step` builds it (`execution_time` is
wall-clock and omitted; `metadata` is flattened into `tables_used` and
`performance`). -/
structure AnalysisStep where
  step_number : ℕ
  description : String
  query : String
  assumptions : List String
  clarifications_needed : List String
  validation_results : Option VRes
  row_count : ℕ
  tables_used : List String
  performance : PerfResult
deriving DecidableEq

/-- Python truthiness of an optional string argument. -/
def pyTruthyStr (o : Option String) : Bool :=
  match o with
  | some s => !s.isEmpty
  | none => false

/-- Python truthiness of an optional list argument. -/
def pyTruthyList (o : Option (List String)) : Bool :=
  match o with
  | some l => !l.isEmpty
  | none => false

/-- The `AnalysisStep` record `add_step` constructs: numbered
`len(self.steps) + 1`, with the extracted tables and the performance
considerations in its metadata. -/
def mkStep (meta : Meta) (steps : List AnalysisStep)
    (description query : String) (assumptions clarifications : List String)
    (vres : Option VRes) (rowCount : ℕ) : AnalysisStep :=
  ⟨steps.length + 1, description, query, assumptions, clarifications, vres,
    rowCount, extractTableNames query,
    checkPerformanceConsiderations meta query (extractTableNames query)⟩

/-- `add_step`: number the step, extract the tables, check performance
(`get_table_metadata` catches its own exceptions, so this cannot raise),
execute the query (an exception propagates and leaves the step log
unchanged), optionally validate when `validate` and the three optional
arguments are all truthy (`num_cases` defaults to 3; an exception inside
validation also propagates), then append the step.  Returns the new step
log and the step. -/
def addStep (meta : Meta) (db : Db) (steps : List AnalysisStep)
    (description query : String) (assumptions clarifications : List String)
    (validate : Bool) (aggCol : Option String) (segCols : Option (List String))
    (table : Option String) : Except String (List AnalysisStep × AnalysisStep) :=
  match executeQuery db query with
  | .error e => .error e
  | .ok frame =>
    if validate && pyTruthyStr aggCol && pyTruthyList segCols &&
        pyTruthyStr table then
      match validateAggregation db query (aggCol.getD "") (segCols.getD [])
          (table.getD "") 3 with
      | .error e => .error e
      | .ok cases =>
        .ok (steps ++ [mkStep meta steps description query assumptions
              clarifications (some ⟨cases, allPassed cases⟩) frame.rows.length],
          mkStep meta steps description query assumptions clarifications
            (some ⟨cases, allPassed cases⟩) frame.rows.length)
    else
      .ok (steps ++ [mkStep meta steps description query assumptions
            clarifications none frame.rows.length],
        mkStep meta steps description query assumptions clarifications none
          frame.rows.length)

/-- A metadata oracle with no information (every metadata query failed). -/
def metaNone : Meta := fun _ => ⟨none, []⟩

/-- A one-row frame whose aggregation column is labelled `max(price)`,
a form the validation recomputation does not recognise. -/
def frameC9 : Frame :=
  ⟨["plan", "max(price)"], [[("plan", .vStr "a"), ("max(price)", .vInt 5)]]⟩

/-- An oracle answering every query with `frameC9`. -/
def dbC9 : Db := fun _ => .ok frameC9

/-- The validation case `add_step` produces on `dbC9` with the
unrecognised label: no expected value, verdict `None`. -/
def caseC9 : ValidationCase :=
  ⟨"case_1", mkRawQuery "users" [("plan", .vStr "a")], none, .vInt 5, none⟩

/-- The step `add_step` produces on `dbC9` (query `"Q"` references no
tables): one indeterminate case, yet `all_passed = true`. -/
def stepC9 : AnalysisStep :=
  ⟨1, "d", "Q", [], [], some ⟨[caseC9], true⟩, 1, [], ⟨[], [], .low⟩⟩

/-- An oracle failing exactly on the query `"BAD"`. -/
def dbC4 : Db := fun q => if q = "BAD" then .error "boom" else .ok frameC9

/-- The step a successful unvalidated `add_step` of query `"Q"` produces
on `dbC4` from an empty step log. -/
def stepC4 : AnalysisStep := ⟨1, "d2", "Q", [], [], none, 1, [], ⟨[], [], .low⟩⟩

/-! ## Theorems -/

theorem toNat_ofNat_valid (m : ℕ) (h : m < 55296) : (Char.ofNat m).toNat = m := by
  rw [Char.ofNat, dif_pos (Or.inl (by exact_mod_cast h))]
  rfl

theorem upChar_not_lower (x : Char) (m : ℕ) (h1 : 97 ≤ m) (h2 : m ≤ 122) :
    (upChar x).toNat ≠ m := by
  unfold upChar
  split
  · next h =>
    rw [toNat_ofNat_valid _ (by omega)]
    omega
  · next h =>
    omega

/-- A needle starting with a lowercase ASCII letter is never a substring of
an uppercased string: the reason the date-filter detection branch of
`check_performance_considerations` is unreachable. -/
theorem subList_map_upChar (c0 : Char) (h1 : 97 ≤ c0.toNat) (h2 : c0.toNat ≤ 122)
    (needle : List Char) (l : List Char) :
    subList (c0 :: needle) (l.map upChar) = false := by
  induction l with
  | nil => rfl
  | cons x xs ih =>
    have hne : (c0 == upChar x) = false := by
      refine beq_eq_false_iff_ne.2 (fun hc => ?_)
      exact upChar_not_lower x c0.toNat h1 h2 (by rw [← hc])
    simp only [List.map_cons, subList, List.isPrefixOf, hne, Bool.false_and,
      Bool.false_or, ih]

/-- The date-keyword scan of `check_performance_considerations` fails on
every query: each keyword is a lowercase literal searched inside
`query.upper()`. -/
theorem dateKeywords_never_found (q : String) :
    dateKeywords.any (fun kw => strIn kw (upStr q)) = false := by
  have h1 : strIn "created_at" (upStr q) = false :=
    subList_map_upChar _ (by decide) (by decide) _ q.data
  have h2 : strIn "occurred_at" (upStr q) = false :=
    subList_map_upChar _ (by decide) (by decide) _ q.data
  have h3 : strIn "timestamp" (upStr q) = false :=
    subList_map_upChar _ (by decide) (by decide) _ q.data
  simp only [dateKeywords, List.any_cons, List.any_nil, h1, h2, h3,
    Bool.or_self, Bool.or_false]

/-- Claim C1 (code bug): the claim says the add-a-date-filter warning for a
table with a date-like column is emitted iff the query text does not contain
one of the date keywords.  The code instead emits the warning
unconditionally, because it searches the lowercase keywords inside
`query.upper()`: here the query does contain `created_at`, yet the warning
is emitted and no `Good: Date filter detected` recommendation is produced. -/
theorem check_performance_warns_despite_date_filter :
    strIn "created_at" qWithDateFilter = true ∧
    PerfWarning.addDateFilter "events" ∈
      (checkPerformanceConsiderations metaEvents qWithDateFilter ["events"]).warnings ∧
    (checkPerformanceConsiderations metaEvents qWithDateFilter ["events"]).recommendations
      = [] := by
  refine ⟨by decide, ?_, ?_⟩ <;> decide

/-- Claim C10: `estimated_cost` is set by the last table that crossed a
row-count threshold, not by the maximum tier: with a >1,000,000-row table
first and a 100,001..1,000,000-row table second, the returned cost is
`medium` (not `high`) while both size warnings are emitted. -/
theorem estimated_cost_last_threshold_wins (meta : Meta) (q t1 t2 : String)
    (n1 n2 : ℕ) (h1 : (meta t1).row_count = some n1) (h2 : 1000000 < n1)
    (h3 : (meta t2).row_count = some n2) (h4 : 100000 < n2) (h5 : n2 ≤ 1000000) :
    (checkPerformanceConsiderations meta q [t1, t2]).estimated_cost = .medium ∧
    PerfWarning.largeTable t1 n1 ∈
      (checkPerformanceConsiderations meta q [t1, t2]).warnings ∧
    PerfWarning.mediumTable t2 n2 ∈
      (checkPerformanceConsiderations meta q [t1, t2]).warnings := by
  have e1 : rcOver (some n1) 1000000 = true := by
    simp only [rcOver, Bool.and_eq_true, decide_eq_true_eq, ne_eq]
    omega
  have e2 : rcOver (some n2) 1000000 = false := by
    simp only [rcOver, Bool.and_eq_false_iff, decide_eq_false_iff_not]
    right; omega
  have e3 : rcOver (some n2) 100000 = true := by
    simp only [rcOver, Bool.and_eq_true, decide_eq_true_eq, ne_eq]
    omega
  have hkw : (strIn "WHERE" (upStr q) &&
      dateKeywords.any (fun kw => strIn kw (upStr q))) = false := by
    rw [dateKeywords_never_found]; simp
  simp only [checkPerformanceConsiderations, List.foldl, perfStep, h1, h3,
    Option.getD_some]
  by_cases hd1 : ∃ x ∈ (meta t1).columns, x ∈ dateKeywords <;>
    by_cases hd2 : ∃ x ∈ (meta t2).columns, x ∈ dateKeywords <;>
      simp [hd1, hd2, e1, e2, e3, hkw, List.mem_append]

/-- Witness for claim C10 at the concrete oracle `metaSizes`. -/
theorem estimated_cost_last_threshold_wins_witness :
    (checkPerformanceConsiderations metaSizes "SELECT 1" ["big", "mid"]).estimated_cost
        = .medium ∧
    PerfWarning.largeTable "big" 2000000 ∈
      (checkPerformanceConsiderations metaSizes "SELECT 1" ["big", "mid"]).warnings ∧
    PerfWarning.mediumTable "mid" 500000 ∈
      (checkPerformanceConsiderations metaSizes "SELECT 1" ["big", "mid"]).warnings :=
  estimated_cost_last_threshold_wins metaSizes "SELECT 1" "big" "mid" 2000000 500000
    (by decide) (by decide) (by decide) (by decide) (by decide)

/-- Claim C2 (counterexample): with the empty rule set that a missing or
invalid rules document produces, `run_sanity_checks` does not produce zero
checks — the unconditional primary-key duplicate check still runs, so
`summary.total_checks` is 1, not 0. -/
theorem run_sanity_checks_empty_rules_not_zero :
    (runSanityChecks emptyRules dbFail "users").summary.total_checks = 1 ∧
    (runSanityChecks emptyRules dbFail "users").duplicate_checks ≠ [] := by
  exact ⟨rfl, by decide⟩

/-- Claim C2 (amended): when the rules document is missing or invalid,
`SanityChecker` degrades to the empty rule set, and `run_sanity_checks` on
any table against any database completes without raising and produces
exactly one check — the unconditional primary-key duplicate check — with
empty null/consistency/completeness lists and `summary.total_checks = 1`. -/
theorem run_sanity_checks_empty_rules (db : SDb) (table : String) :
    (runSanityChecks emptyRules db table).null_checks = [] ∧
    (runSanityChecks emptyRules db table).consistency_checks = [] ∧
    (runSanityChecks emptyRules db table).completeness_checks = [] ∧
    (runSanityChecks emptyRules db table).duplicate_checks.length = 1 ∧
    (runSanityChecks emptyRules db table).summary.total_checks = 1 :=
  ⟨rfl, rfl, rfl, rfl, rfl⟩

theorem sumStep_total (s : SanitySummary) (c : Check) :
    (sumStep s c).total_checks = s.total_checks + 1 := rfl

theorem foldl_sumStep_total (l : List Check) :
    ∀ s : SanitySummary,
      (l.foldl sumStep s).total_checks = s.total_checks + l.length := by
  induction l with
  | nil => intro s; simp
  | cons c t ih =>
    intro s
    rw [List.foldl_cons, ih, sumStep_total, List.length_cons]
    omega

theorem sumStep_sum (s : SanitySummary) (c : Check) (h : CheckOK c) :
    (sumStep s c).passed + (sumStep s c).warnings + (sumStep s c).errors =
      s.passed + s.warnings + s.errors + 1 := by
  rcases c with ⟨n, st, sv⟩
  cases st <;> cases sv <;>
    simp only [CheckOK] at h <;>
      simp_all [sumStep] <;> omega

theorem foldl_sumStep_sum (l : List Check) (hOK : ∀ c ∈ l, CheckOK c) :
    ∀ s : SanitySummary,
      (l.foldl sumStep s).passed + (l.foldl sumStep s).warnings +
          (l.foldl sumStep s).errors =
        s.passed + s.warnings + s.errors + l.length := by
  induction l with
  | nil => intro s; simp
  | cons c t ih =>
    intro s
    rw [List.foldl_cons]
    rw [ih (fun x hx => hOK x (List.mem_cons_of_mem c hx))]
    rw [sumStep_sum s c (hOK c (List.mem_cons_self c t))]
    simp [List.length_cons]
    omega

/-- Summary counts of a list of well-counted checks. -/
theorem summarize_spec (l : List Check) (h : ∀ c ∈ l, CheckOK c) :
    (summarize l).total_checks = l.length ∧
    (summarize l).passed + (summarize l).warnings + (summarize l).errors =
      l.length := by
  constructor
  · rw [summarize, foldl_sumStep_total]
    simp
  · rw [summarize, foldl_sumStep_sum l h]
    simp

theorem checkNulls_ok (db : SDb) (table : String) (tr : TableRules)
    (h : ∀ c, NonnegCount (db (.nullCount table c)) "null_count") :
    ∀ ch ∈ checkNulls db table tr, CheckOK ch := by
  intro ch hch
  rw [checkNulls, List.mem_map] at hch
  obtain ⟨col, -, rfl⟩ := hch
  have hc := h col
  split
  · right; right; rfl
  · next f heq =>
    split
    · next nc q hnc hq =>
      rw [heq] at hc
      by_cases h0 : nc = 0
      · left
        simp [h0]
      · have h1 : (0 : ℤ) < nc := lt_of_le_of_ne (hc nc hnc) (Ne.symm h0)
        right; right
        simp [h0, h1]
    · right; right; rfl

theorem checkDuplicates_ok (db : SDb) (table : String) (tr : TableRules)
    (h : PkConsistent (db (.pkDup table))) :
    ∀ ch ∈ checkDuplicates db table tr, CheckOK ch := by
  intro ch hch
  rw [checkDuplicates] at hch
  rcases List.mem_cons.1 hch with rfl | hmem
  · split
    · right; right; rfl
    · next f heq =>
      split
      · next t u ht hu =>
        rw [heq] at h
        by_cases h0 : t - u = 0
        · left
          simp [h0]
        · have h1 : (0 : ℤ) < t - u := by
            have := h t u ht hu
            omega
          right; right
          simp [h0, h1]
      · right; right; rfl
  · rw [List.mem_map] at hmem
    obtain ⟨key, -, rfl⟩ := hmem
    split
    · right; right; rfl
    · next f heq =>
      by_cases h0 : f.rows.length = 0
      · left
        simp [h0]
      · have h1 : 0 < f.rows.length := Nat.pos_of_ne_zero h0
        right; left
        simp [h0, h1]

theorem checkConsistency_ok (db : SDb) (table : String) (tr : TableRules)
    (hd : ∀ s e, NonnegCount (db (.dateRange table s e)) "invalid_ranges")
    (hn : ∀ c mn mx, NonnegCount (db (.numRange table c mn mx)) "out_of_range") :
    ∀ ch ∈ checkConsistency db table tr, CheckOK ch := by
  intro ch hch
  rw [checkConsistency] at hch
  rcases List.mem_append.1 hch with hch' | hch'
  case _ =>
    rcases List.mem_append.1 hch' with hdate | hnum
    · rw [List.mem_filterMap] at hdate
      obtain ⟨⟨os, oe⟩, -, heq⟩ := hdate
      rcases os with _ | sc <;> rcases oe with _ | ec <;> simp only [] at heq
      · exact absurd heq (by simp)
      · exact absurd heq (by simp)
      · exact absurd heq (by simp)
      · by_cases he : sc.isEmpty || ec.isEmpty
        · rw [if_pos he] at heq
          exact absurd heq (by simp)
        · rw [if_neg he, Option.some_inj] at heq
          subst heq
          split
          · right; right; rfl
          · next f hf =>
            split
            · next n hcell =>
              have hcc := hd sc ec
              rw [hf] at hcc
              by_cases h0 : n = 0
              · left
                simp [h0]
              · have h1 : (0 : ℤ) < n := lt_of_le_of_ne (hcc n hcell) (Ne.symm h0)
                right; right
                simp [h0, h1]
            · right; right; rfl
    · rw [List.mem_filterMap] at hnum
      obtain ⟨⟨oc, omn, omx⟩, -, heq⟩ := hnum
      rcases oc with _ | cn <;> rcases omn with _ | mn <;> rcases omx with _ | mx <;>
        simp only [] at heq
      case _ => exact absurd heq (by simp)
      case _ => exact absurd heq (by simp)
      case _ => exact absurd heq (by simp)
      case _ => exact absurd heq (by simp)
      case _ => exact absurd heq (by simp)
      case _ => exact absurd heq (by simp)
      case _ => exact absurd heq (by simp)
      case _ =>
        by_cases he : cn.isEmpty
        · rw [if_pos he] at heq
          exact absurd heq (by simp)
        · rw [if_neg he, Option.some_inj] at heq
          subst heq
          split
          · right; right; rfl
          · next f hf =>
            split
            · next n hcell =>
              have hcc := hn cn mn mx
              rw [hf] at hcc
              by_cases h0 : n = 0
              · left
                simp [h0]
              · have h1 : (0 : ℤ) < n := lt_of_le_of_ne (hcc n hcell) (Ne.symm h0)
                right; left
                simp [h0, h1]
            · right; right; rfl
  case _ =>
    rw [List.mem_filterMap] at hch'
    obtain ⟨⟨oc, expected⟩, -, heq⟩ := hch'
    rcases oc with _ | cn <;> simp only [] at heq
    · exact absurd heq (by simp)
    · by_cases he : cn.isEmpty || expected.isEmpty
      · rw [if_pos he] at heq
        exact absurd heq (by simp)
      · rw [if_neg he, Option.some_inj] at heq
        subst heq
        split
        · right; right; rfl
        · next f hf =>
          split
          · next vals hvals =>
            by_cases h0 : unexpectedCount vals expected = 0
            · left
              simp [h0]
            · have h1 : 0 < unexpectedCount vals expected := Nat.pos_of_ne_zero h0
              right; left
              simp [h0, h1]
          · right; right; rfl

theorem checkCompleteness_ok (db : SDb) (table : String) (tr : TableRules) :
    ∀ ch ∈ checkCompleteness db table tr, CheckOK ch := by
  intro ch hch
  rw [checkCompleteness, List.mem_map] at hch
  obtain ⟨col, -, rfl⟩ := hch
  split
  · right; right; rfl
  · next f heq =>
    split
    · next pct a b hp ha hb =>
      by_cases h0 : 95 ≤ pct
      · left
        simp [h0]
      · have h1 : pct < 95 := lt_of_not_le h0
        right; left
        simp [h0, h1]
    · right; right; rfl

/-- Claim C6: in every `run_sanity_checks` result (over any rule set, any
table and any database whose count queries behave like SQL counts),
`summary.total_checks` is the sum of the four category-list lengths, and
`passed + warnings + errors = total_checks`. -/
theorem sanity_summary_invariant (rules : SanityRules) (db : SDb)
    (table : String) (h : SqlConsistent db) :
    (runSanityChecks rules db table).summary.total_checks =
      (runSanityChecks rules db table).null_checks.length +
        (runSanityChecks rules db table).duplicate_checks.length +
        (runSanityChecks rules db table).consistency_checks.length +
        (runSanityChecks rules db table).completeness_checks.length ∧
    (runSanityChecks rules db table).summary.passed +
        (runSanityChecks rules db table).summary.warnings +
        (runSanityChecks rules db table).summary.errors =
      (runSanityChecks rules db table).summary.total_checks := by
  obtain ⟨hpk, hnull, hdate, hnum⟩ := h
  have hOK : ∀ c ∈
      ((if rules.null_enabled then checkNulls db table (getTableRules rules table) else []) ++
        (if rules.duplicate_enabled then checkDuplicates db table (getTableRules rules table) else []) ++
        (if rules.consistency_enabled then checkConsistency db table (getTableRules rules table) else []) ++
        (if rules.completeness_enabled then checkCompleteness db table (getTableRules rules table) else [])),
      CheckOK c := by
    intro c hc
    simp only [List.mem_append] at hc
    rcases hc with ((hc | hc) | hc) | hc
    · by_cases hb : rules.null_enabled = true
      · rw [if_pos hb] at hc
        exact checkNulls_ok db table _ (fun cc => hnull table cc) c hc
      · rw [if_neg hb] at hc
        simp at hc
    · by_cases hb : rules.duplicate_enabled = true
      · rw [if_pos hb] at hc
        exact checkDuplicates_ok db table _ (hpk table) c hc
      · rw [if_neg hb] at hc
        simp at hc
    · by_cases hb : rules.consistency_enabled = true
      · rw [if_pos hb] at hc
        exact checkConsistency_ok db table _ (fun s e => hdate table s e)
          (fun cc mn mx => hnum table cc mn mx) c hc
      · rw [if_neg hb] at hc
        simp at hc
    · by_cases hb : rules.completeness_enabled = true
      · rw [if_pos hb] at hc
        exact checkCompleteness_ok db table _ c hc
      · rw [if_neg hb] at hc
        simp at hc
  have hs := summarize_spec _ hOK
  constructor
  · rw [runSanityChecks]
    simp only []
    rw [hs.1]
    simp only [List.length_append]
  · rw [runSanityChecks]
    simp only []
    rw [hs.2, hs.1]

/-- Witness for claim C6 at the all-raising oracle `dbFail` (on which every
SQL-consistency side condition holds vacuously). -/
theorem sanity_summary_invariant_witness :
    (runSanityChecks emptyRules dbFail "users").summary.total_checks =
      (runSanityChecks emptyRules dbFail "users").null_checks.length +
        (runSanityChecks emptyRules dbFail "users").duplicate_checks.length +
        (runSanityChecks emptyRules dbFail "users").consistency_checks.length +
        (runSanityChecks emptyRules dbFail "users").completeness_checks.length ∧
    (runSanityChecks emptyRules dbFail "users").summary.passed +
        (runSanityChecks emptyRules dbFail "users").summary.warnings +
        (runSanityChecks emptyRules dbFail "users").summary.errors =
      (runSanityChecks emptyRules dbFail "users").summary.total_checks :=
  sanity_summary_invariant emptyRules dbFail "users"
    ⟨fun _ => trivial, fun _ _ => trivial, fun _ _ _ => trivial,
      fun _ _ _ _ => trivial⟩

/-- Claim C7 (counterexample): on the 3+3 table the pairwise entry is
`free_vs_pro` with `mean_diff = -10` and `mean_diff_pct = -50`: the two
values have the same sign, not opposite signs as the claim states. -/
theorem compare_segments_price_signs_not_opposite :
    Except.map
        (fun r => r.comparisons.map (fun pe => (pe.2.mean_diff, pe.2.mean_diff_pct)))
        (compareSegments sfZero df7 "plan" "monthly_price" none) =
      Except.ok [((-10 : ℚ), (-50 : ℚ))] ∧
    ¬((-10 : ℚ) * (-50 : ℚ) < 0) := by
  constructor
  · with_unfolding_all rfl
  · with_unfolding_all decide

/-- Claim C7 (amended): on the 3+3 table, `compare_segments` (for every
Student survival function, which this code path never consults) reports
`free.mean = 10`, `pro.mean = 20`, and the `free_vs_pro` comparison with
`mean_diff = -10` and `mean_diff_pct = -50` (equal signs); the
zero-variance case does not raise: scipy's division by the zero pooled
deviation yields `t = -inf` and the reported convention `p = 0`
(hence `significant = true`). -/
theorem compare_segments_plan_price (sf : SF) :
    compareSegments sf df7 "plan" "monthly_price" none =
      Except.ok
        ⟨"plan", "monthly_price", [.vStr "free", .vStr "pro"],
          [(.vStr "free", ⟨3, 10, 10, some 0, 10, 10, 10, 10⟩),
            (.vStr "pro", ⟨3, 20, 20, some 0, 20, 20, 20, 20⟩)],
          [((.vStr "free", .vStr "pro"), ⟨-10, -50, .negInf, .val 0, true⟩)]⟩ := by
  with_unfolding_all rfl

/-- Claim C3 (counterexample): in `dfSingles` each segment has exactly one
non-null metric observation (fewer than 2), yet the pair is not skipped:
`compare_segments` reports an entry for it, carrying NaN t-statistic and
p-value. -/
theorem compare_segments_singleton_pair_reported :
    compareSegments sfZero dfSingles "plan" "x" none = Except.ok cmpSingles ∧
    cmpSingles.comparisons =
      [((Value.vStr "a", Value.vStr "b"),
        ⟨-1, -50, TVal.nan, PVal.nan, false⟩)] ∧
    (metricData dfSingles.rows "plan" "x" (Value.vStr "a")).length = 1 ∧
    (metricData dfSingles.rows "plan" "x" (Value.vStr "b")).length = 1 := by
  refine ⟨by with_unfolding_all rfl, rfl, rfl, rfl⟩

/-- Claim C3 (amended): a pairwise comparison entry is produced exactly for
the ordered pairs (i < j) of distinct segments in which both segments have
at least one non-null metric observation; a pair in which a segment has a
single observation is still reported (with NaN t-statistic and p-value, as
scipy returns NaN rather than raising), and only pairs with an empty
metric series on either side are skipped. -/
theorem compare_segments_pair_guard (sf : SF) (df : Frame)
    (segCol metCol : String) (r : Comparison)
    (h : compareSegments sf df segCol metCol none = .ok r) (s1 s2 : Value) :
    (s1, s2) ∈ r.comparisons.map Prod.fst ↔
      ((s1, s2) ∈ pairsOf r.segments_compared ∧
        0 < (metricData df.rows segCol metCol s1).length ∧
        0 < (metricData df.rows segCol metCol s2).length) := by
  by_cases hcols : segCol ∈ df.cols ∧ metCol ∈ df.cols
  · rw [compareSegments, if_pos hcols] at h
    injection h with h
    subst h
    dsimp only
    simp only [List.mem_map, List.mem_filterMap]
    constructor
    · rintro ⟨⟨p, e⟩, ⟨x, hx, hfx⟩, hfst⟩
      have hp : p = (s1, s2) := hfst
      subst hp
      by_cases hc : 0 < (metricData df.rows segCol metCol x.1).length ∧
          0 < (metricData df.rows segCol metCol x.2).length
      · rw [pairEntry, if_pos hc] at hfx
        have hxp : x = (s1, s2) := congrArg Prod.fst (Option.some_inj.1 hfx)
        subst hxp
        exact ⟨hx, hc⟩
      · rw [pairEntry, if_neg hc] at hfx
        exact absurd hfx (by simp)
    · rintro ⟨hmem, h1, h2⟩
      refine ⟨((s1, s2),
        compEntryFor sf (metricData df.rows segCol metCol s1)
          (metricData df.rows segCol metCol s2)), ⟨(s1, s2), hmem, ?_⟩, rfl⟩
      rw [pairEntry, if_pos ⟨h1, h2⟩]
  · rw [compareSegments, if_neg hcols] at h
    exact absurd h (by simp)

/-- Witness for claim C3's amended theorem at the concrete table
`dfSingles` and its computed comparison result. -/
theorem compare_segments_pair_guard_witness :
    (Value.vStr "a", Value.vStr "b") ∈ cmpSingles.comparisons.map Prod.fst ↔
      ((Value.vStr "a", Value.vStr "b") ∈ pairsOf cmpSingles.segments_compared ∧
        0 < (metricData dfSingles.rows "plan" "x" (Value.vStr "a")).length ∧
        0 < (metricData dfSingles.rows "plan" "x" (Value.vStr "b")).length) :=
  compare_segments_pair_guard sfZero dfSingles "plan" "x" cmpSingles
    (by with_unfolding_all rfl) (Value.vStr "a") (Value.vStr "b")

/-- Claim C8: the distribution analysis counts as outliers exactly the
values outside `[Q1 - 1.5·IQR, Q3 + 1.5·IQR]` (first conjunct, for every
series), and on `[1,2,3,4,5,100]` it computes Q1 = 2.25, Q3 = 4.75
(so IQR = 2.5), fences `[-1.5, 8.5]`, reports `outlier_count = 1` (the
value 100 alone), and raises the outliers flag — for every skewness
function, since the claim is independent of the skew value. -/
theorem eda_outlier_iqr (skew : SkewFn) :
    (∀ data : List ℚ,
      (numDistEntry skew data).outlier_count =
        (data.filter (fun v =>
          v < (outlierBounds data).1 ∨ (outlierBounds data).2 < v)).length) ∧
    quantileQ [1, 2, 3, 4, 5, 100] (1 / 4) = 9 / 4 ∧
    quantileQ [1, 2, 3, 4, 5, 100] (3 / 4) = 19 / 4 ∧
    (outlierBounds [1, 2, 3, 4, 5, 100]).1 = -3 / 2 ∧
    (outlierBounds [1, 2, 3, 4, 5, 100]).2 = 17 / 2 ∧
    outliersOf [1, 2, 3, 4, 5, 100] = [100] ∧
    (numDistEntry skew [1, 2, 3, 4, 5, 100]).outlier_count = 1 ∧
    EdaFlag.outliers "data" 1 ∈
      (analyzeDistributions skew
        [("data", [.vInt 1, .vInt 2, .vInt 3, .vInt 4, .vInt 5, .vInt 100])]).2 := by
  refine ⟨fun data => rfl, by with_unfolding_all decide,
    by with_unfolding_all decide, by with_unfolding_all decide,
    by with_unfolding_all decide, by with_unfolding_all decide,
    by with_unfolding_all rfl, ?_⟩
  have hflags : (analyzeDistributions skew
      [("data", [.vInt 1, .vInt 2, .vInt 3, .vInt 4, .vInt 5, .vInt 100])]).2 =
      numColFlags skew "data" [1, 2, 3, 4, 5, 100] := by
    with_unfolding_all rfl
  rw [hflags, numColFlags]
  by_cases hs : 2 < |skew [1, 2, 3, 4, 5, 100]|
  · rw [if_pos hs]
    have h1 : (outliersOf [1, 2, 3, 4, 5, 100] : List ℚ).length = 1 := by
      with_unfolding_all decide
    rw [h1]
    have hz : (numDistEntry skew [1, 2, 3, 4, 5, 100]).zero_percentage = 0 := by
      with_unfolding_all rfl
    rw [hz, if_neg (by norm_num : ¬((50 : ℚ) < 0)), if_pos (by norm_num)]
    simp
  · rw [if_neg hs]
    have h1 : (outliersOf [1, 2, 3, 4, 5, 100] : List ℚ).length = 1 := by
      with_unfolding_all decide
    rw [h1]
    have hz : (numDistEntry skew [1, 2, 3, 4, 5, 100]).zero_percentage = 0 := by
      with_unfolding_all rfl
    rw [hz, if_neg (by norm_num : ¬((50 : ℚ) < 0)), if_pos (by norm_num)]
    simp

/-- Claim C4: if the query issued by `add_step` fails, the exception
propagates (the session does not catch it) and the step log is unchanged —
no step is appended for the failed call, so a subsequent successful
`add_step` from the same log receives exactly the step number
`len(steps) + 1` that the failed call would have had. -/
theorem add_step_error_propagates (meta : Meta) (db : Db)
    (steps : List AnalysisStep) (desc q : String) (a c : List String)
    (v : Bool) (ac : Option String) (sc : Option (List String))
    (tn : Option String) (e : String) (h : db q = .error e)
    (desc2 q2 : String) (a2 c2 : List String) (v2 : Bool) (ac2 : Option String)
    (sc2 : Option (List String)) (tn2 : Option String)
    (steps2 : List AnalysisStep) (st2 : AnalysisStep)
    (h2 : addStep meta db steps desc2 q2 a2 c2 v2 ac2 sc2 tn2 =
      .ok (steps2, st2)) :
    addStep meta db steps desc q a c v ac sc tn = .error e ∧
    st2.step_number = steps.length + 1 ∧ steps2 = steps ++ [st2] := by
  constructor
  · rw [addStep]
    simp only [executeQuery, h]
  · rw [addStep] at h2
    simp only [executeQuery] at h2
    cases hdb : db q2 with
    | error e2 =>
      rw [hdb] at h2
      exact absurd h2 (by simp)
    | ok f =>
      rw [hdb] at h2
      dsimp only at h2
      by_cases hv : (v2 && pyTruthyStr ac2 && pyTruthyList sc2 &&
          pyTruthyStr tn2) = true
      · rw [if_pos hv] at h2
        cases hva : validateAggregation db q2 (ac2.getD "") (sc2.getD [])
            (tn2.getD "") 3 with
        | error e3 =>
          rw [hva] at h2
          exact absurd h2 (by simp)
        | ok cases2 =>
          rw [hva] at h2
          have h3 := congrArg Prod.fst (Except.ok.inj h2)
          have h4 := congrArg Prod.snd (Except.ok.inj h2)
          subst h3
          subst h4
          exact ⟨rfl, rfl⟩
      · rw [if_neg hv] at h2
        have h3 := congrArg Prod.fst (Except.ok.inj h2)
        have h4 := congrArg Prod.snd (Except.ok.inj h2)
        subst h3
        subst h4
        exact ⟨rfl, rfl⟩

/-- Witness for claim C4: on `dbC4` the query `"BAD"` raises, `add_step`
propagates the exception, and the successful `add_step` of `"Q"` from the
same empty log gets step number 1. -/
theorem add_step_error_propagates_witness :
    addStep metaNone dbC4 [] "d" "BAD" [] [] false none none none =
      .error "boom" ∧
    stepC4.step_number = ([] : List AnalysisStep).length + 1 ∧
    [stepC4] = ([] : List AnalysisStep) ++ [stepC4] :=
  add_step_error_propagates metaNone dbC4 [] "d" "BAD" [] [] false none none
    none "boom" (by rfl) "d2" "Q" [] [] false none none none [stepC4] stepC4
    (by with_unfolding_all rfl)

theorem expectedFor_eq_spec (label : String) (raw : Frame) :
    expectedFor label raw = specExpected (classifyAgg label) raw := by
  rw [expectedFor, classifyAgg]
  by_cases h1 : downStr label = "count" ∨ downStr label = "count(*)"
  · rw [if_pos h1, if_pos h1]
    rfl
  · rw [if_neg h1, if_neg h1]
    by_cases h2 : strIn "sum" (downStr label) = true
    · rw [if_pos h2, if_pos h2]
      rfl
    · rw [if_neg h2, if_neg h2]
      by_cases h3 : strIn "avg" (downStr label) = true
      · rw [if_pos h3, if_pos h3]
        rfl
      · rw [if_neg h3, if_neg h3]
        rfl

theorem comparePassed_eq_spec (e : Option Value) (a : Value) :
    comparePassed e a = specPassed e a := by
  cases e with
  | none => rfl
  | some v => rfl

theorem mkValidationCase_eq_spec (db : Db) (aggCol : String)
    (segCols : List String) (table : String) (i : ℕ) (r : Row) :
    mkValidationCase db aggCol segCols table i r =
      specCase db aggCol segCols table (i, r) := by
  rw [mkValidationCase, specCase]
  cases hdb : db (mkRawQuery table (whereConds segCols r)) with
  | error e => rfl
  | ok raw =>
    dsimp only
    cases hget : r.get aggCol with
    | none => rfl
    | some actual =>
      dsimp only
      rw [expectedFor_eq_spec, comparePassed_eq_spec]
      rfl

theorem validateCases_eq_spec (db : Db) (aggCol : String)
    (segCols : List String) (table : String) :
    ∀ (rows : List Row) (i : ℕ),
      validateCases db aggCol segCols table i rows =
        (rows.enumFrom i).mapM (specCase db aggCol segCols table) := by
  intro rows
  induction rows with
  | nil => intro i; rfl
  | cons r rs ih =>
    intro i
    rw [show List.enumFrom i (r :: rs) = (i, r) :: List.enumFrom (i + 1) rs
      from rfl]
    rw [List.mapM_cons]
    simp only [validateCases]
    rw [mkValidationCase_eq_spec]
    cases hsc : specCase db aggCol segCols table (i, r) with
    | error e => rfl
    | ok c =>
      rw [ih (i + 1)]
      cases hm : (rs.enumFrom (i + 1)).mapM (specCase db aggCol segCols table) with
      | error e => rfl
      | ok cs => rfl

/-- Claim C5: `validate_aggregation` implements the specified algorithm —
take the first `sample_n` rows of the aggregated result in order (no
randomization; the sampling is `head(num_cases)` of a pure computation),
build each case's equality filter from that row's non-null segment-column
values only, fetch the raw sample with the literal `LIMIT 100` query,
recompute Count / Sum(col) / Average(col) according to which known form
the label matches, and compare with absolute tolerance 0.01 when both
values are floats and exact equality otherwise.  Stated as equality with
the spec-side formulation `validateAggregationSpec`, for every database,
query, label, segment columns, table and sample size (the source's
default is `num_cases = 3`). -/
theorem validate_aggregation_refines_spec (db : Db) (aggQ aggCol : String)
    (segCols : List String) (table : String) (n : ℕ) :
    validateAggregation db aggQ aggCol segCols table n =
      validateAggregationSpec db aggQ aggCol segCols table n := by
  rw [validateAggregation, validateAggregationSpec]
  cases hq : executeQuery db aggQ with
  | error e => rfl
  | ok aggDf =>
    dsimp only
    rw [validateCases_eq_spec]
    rfl

theorem expectedFor_none (aggCol : String)
    (h1 : ¬(downStr aggCol = "count" ∨ downStr aggCol = "count(*)"))
    (h2 : strIn "sum" (downStr aggCol) = false)
    (h3 : strIn "avg" (downStr aggCol) = false) (raw : Frame) :
    expectedFor aggCol raw = none := by
  rw [expectedFor, if_neg h1, if_neg (by simp [h2]), if_neg (by simp [h3])]

theorem validateCases_passed_none (db : Db) (aggCol : String)
    (segCols : List String) (table : String)
    (h1 : ¬(downStr aggCol = "count" ∨ downStr aggCol = "count(*)"))
    (h2 : strIn "sum" (downStr aggCol) = false)
    (h3 : strIn "avg" (downStr aggCol) = false) :
    ∀ (rows : List Row) (i : ℕ) (cases : List ValidationCase),
      validateCases db aggCol segCols table i rows = .ok cases →
        ∀ c ∈ cases, c.passed = none := by
  intro rows
  induction rows with
  | nil =>
    intro i cases hok c hc
    simp only [validateCases] at hok
    rw [← Except.ok.inj hok] at hc
    exact absurd hc (by simp)
  | cons r rs ih =>
    intro i cases hok c hc
    simp only [validateCases] at hok
    cases hmk : mkValidationCase db aggCol segCols table i r with
    | error e =>
      rw [hmk] at hok
      exact absurd hok (by simp)
    | ok c1 =>
      rw [hmk] at hok
      cases hrec : validateCases db aggCol segCols table (i + 1) rs with
      | error e =>
        rw [hrec] at hok
        exact absurd hok (by simp)
      | ok cs =>
        rw [hrec] at hok
        rw [← Except.ok.inj hok] at hc
        rcases List.mem_cons.1 hc with rfl | hmem
        · rw [mkValidationCase] at hmk
          cases hdb : db (mkRawQuery table (whereConds segCols r)) with
          | error e =>
            rw [hdb] at hmk
            exact absurd hmk (by simp)
          | ok raw =>
            rw [hdb] at hmk
            dsimp only at hmk
            cases hget : r.get aggCol with
            | none =>
              rw [hget] at hmk
              exact absurd hmk (by simp)
            | some actual =>
              rw [hget] at hmk
              rw [← Except.ok.inj hmk]
              show comparePassed (expectedFor aggCol raw) actual = none
              rw [expectedFor_none aggCol h1 h2 h3]
              rfl
        · exact ih (i + 1) cs hrec c hmem

/-- Claim C9: in a validated `add_step`, `all_passed` is the conjunction
of `passed` over only those cases whose `passed` is not `None` (first
conjunct); consequently, when the aggregation-column label matches none of
the Count/Sum/Avg forms, every produced case is indeterminate
(`passed = None`) and `all_passed` is vacuously `true` even though no case
actually passed. -/
theorem add_step_all_passed_vacuous (meta : Meta) (db : Db)
    (steps : List AnalysisStep) (desc q : String) (a cl : List String)
    (aggCol : String) (segCols : List String) (table : String)
    (h1 : ¬(downStr aggCol = "count" ∨ downStr aggCol = "count(*)"))
    (h2 : strIn "sum" (downStr aggCol) = false)
    (h3 : strIn "avg" (downStr aggCol) = false)
    (hne1 : aggCol.isEmpty = false) (hne2 : segCols.isEmpty = false)
    (hne3 : table.isEmpty = false) (steps2 : List AnalysisStep)
    (st2 : AnalysisStep)
    (h4 : addStep meta db steps desc q a cl true (some aggCol) (some segCols)
      (some table) = .ok (steps2, st2)) :
    (∀ cs : List ValidationCase,
      allPassed cs = true ↔ ∀ c ∈ cs, ∀ b, c.passed = some b → b = true) ∧
    ∃ vr, st2.validation_results = some vr ∧
      (∀ c ∈ vr.cases, c.passed = none) ∧ vr.all_passed = true := by
  constructor
  · intro cs
    rw [allPassed, List.all_eq_true]
    constructor
    · intro h c hc b hb
      have := h c (List.mem_filter.2 ⟨hc, by rw [hb]; rfl⟩)
      rw [hb] at this
      simpa using this
    · intro h c hc
      have hcm := List.mem_filter.1 hc
      obtain ⟨b, hb⟩ := Option.isSome_iff_exists.1 hcm.2
      rw [hb]
      have := h c hcm.1 b hb
      simp [this]
  · rw [addStep] at h4
    simp only [executeQuery] at h4
    cases hdb : db q with
    | error e =>
      rw [hdb] at h4
      exact absurd h4 (by simp)
    | ok f =>
      rw [hdb] at h4
      dsimp only at h4
      rw [if_pos (by simp [pyTruthyStr, pyTruthyList, hne1, hne2, hne3])] at h4
      simp only [Option.getD_some] at h4
      cases hva : validateAggregation db q aggCol segCols table 3 with
      | error e =>
        rw [hva] at h4
        exact absurd h4 (by simp)
      | ok cases1 =>
        rw [hva] at h4
        have h5 := congrArg Prod.snd (Except.ok.inj h4)
        subst h5
        have hvc : validateCases db aggCol segCols table 0 (f.rows.take 3) =
            .ok cases1 := by
          rw [validateAggregation] at hva
          simp only [executeQuery, hdb] at hva
          exact hva
        have hnone := validateCases_passed_none db aggCol segCols table h1 h2 h3
          (f.rows.take 3) 0 cases1 hvc
        refine ⟨⟨cases1, allPassed cases1⟩, rfl, hnone, ?_⟩
        show allPassed cases1 = true
        rw [allPassed]
        have hfil : cases1.filter (fun c => c.passed.isSome) = [] :=
          List.filter_eq_nil_iff.2 (fun c hc => by rw [hnone c hc]; simp)
        rw [hfil]
        rfl

/-- Witness for claim C9: with the unrecognised label `max(price)` on
`dbC9`, `add_step` produces the single indeterminate case of `stepC9`
whose `all_passed` is `true`. -/
theorem add_step_all_passed_vacuous_witness :
    (∀ cs : List ValidationCase,
      allPassed cs = true ↔ ∀ c ∈ cs, ∀ b, c.passed = some b → b = true) ∧
    ∃ vr, stepC9.validation_results = some vr ∧
      (∀ c ∈ vr.cases, c.passed = none) ∧ vr.all_passed = true :=
  add_step_all_passed_vacuous metaNone dbC9 [] "d" "Q" [] [] "max(price)"
    ["plan"] "users" (by decide) (by decide) (by decide) (by decide)
    (by decide) (by decide) [stepC9] stepC9 (by with_unfolding_all rfl)
